import Mathlib

/-!
Shallow embedding of the AI news updater script
(`scripts/update_news.py`, class `AINewsUpdater`).

Modelling conventions:
* Python strings are `List Char` (abbreviated `Text`); `str.lower()` is
  `Char.toLower` applied pointwise, and the Python substring test `a in b`
  is decided `List.IsInfix`.
* The floats of the importance scorer are modelled as rationals; every
  literal involved (7.0, 1.5, 0.8, 1.0, 9.5) is exactly representable, and
  `round(x, 1)` is rounding of `10 * x` to an integer, divided by 10.
* Effects are parameters: the translation endpoint is a function
  `Text → NetResult`; HTML stripping (BeautifulSoup `get_text`), the
  relative-time formatter `calculate_time_ago` (which depends on the wall
  clock and on the date-parsing library) and the current date are fields of
  an environment record `Env`.
* The md5 title digest used for deduplication is an arbitrary function
  parameter `hash : Text → β`, so every theorem about deduplication holds
  for the concrete digest as a special case.
-/

namespace UpdateNews

/-- Python strings, modelled as their character sequences. -/
abbrev Text := List Char

/-- Python `str.lower()` (ASCII case folding, which is all the fixed
keyword lists exercise). -/
def lower (s : Text) : Text := s.map Char.toLower

/-- Python substring test `needle in hay`. -/
def contains_text (needle hay : Text) : Bool := decide (needle <:+: hay)

/-- `self.categories` from `AINewsUpdater.__init__`: the fixed taxonomy,
in definition (= dict iteration) order. -/
def categories : List (Text × List Text) :=
  [("chatgpt".data, ["ChatGPT".data, "GPT-4".data, "GPT-5".data, "OpenAI".data]),
   ("gemini".data, ["Gemini".data, "Google AI".data, "Bard".data]),
   ("deepseek".data, ["DeepSeek".data, "DeepSeek-V3".data, "DeepSeek AI".data]),
   ("qwen".data, ["Qwen".data, "Qwen 2.5".data, "Alibaba AI".data]),
   ("kimi".data, ["Kimi".data, "Kimi-K2".data, "Moonshot AI".data])]

/-- The taxonomy key set. -/
def categoryKeys : List Text := categories.map Prod.fst

/-- `self.target_sources` from `__init__`. -/
def target_sources : List Text := ["theverge.com".data, "techcrunch.com".data]

/-- `high_impact` keyword list from `calculate_importance`. -/
def high_impact : List Text :=
  ["breakthrough".data, "revolutionary".data, "획기적".data, "launch".data,
   "출시".data, "releases".data, "unveils".data]

/-- `medium_impact` keyword list from `calculate_importance`. -/
def medium_impact : List Text :=
  ["update".data, "업데이트".data, "announces".data, "발표".data, "reveals".data]

/-- `premium_sources` list from `calculate_importance`. -/
def premium_sources : List Text :=
  ["TechCrunch".data, "The Verge".data, "MIT".data, "Nature".data,
   "Bloomberg".data, "Reuters".data]

/-- `important_words` list from `extract_keywords`. -/
def important_words : List Text :=
  ["ChatGPT".data, "OpenAI".data, "Gemini".data, "Google".data, "DeepSeek".data,
   "Qwen".data, "Kimi".data, "Moonshot".data, "AI".data, "LLM".data, "GPT".data]

/-- The dictionaries appended to `news_items` in `fetch_real_news` (and the
entries of `get_default_news`). -/
structure NewsItem where
  id : Nat
  title : Text
  source : Text
  category : Text
  date : Text
  time : Text
  importance : ℚ
  description : Text
  link : Text
  keywords : List Text
deriving DecidableEq, Inhabited

/-- One raw RSS `item` element: each child (`title`, `link`, `pubDate`,
`description`, `source`) may be absent (`item.title` is `None` in Python). -/
structure RawEntry where
  title : Option Text
  link : Option Text
  pubDate : Option Text
  description : Option Text
  source : Option Text
deriving DecidableEq

/-- Outcome of the translation HTTP call in `translate_to_korean`:
either a response with a status code and (when the JSON body has the
expected nested-array shape) the list of translated segments
(`item[0]` for `item` in `result[0]`), or a raised network exception.
A body of unexpected shape (`segments = none`) makes the extraction
raise, which the `except` clause turns into pass-through. -/
inductive NetResult where
  | ok (status : Nat) (segments : Option (List Text))
  | error
deriving DecidableEq

/-- `AINewsUpdater.translate_to_korean`, with the network modelled by
`net`.  Empty or whitespace-only input short-circuits before any call;
a non-200 status, a network error or a malformed body all return the
input unchanged; a well-formed 200 response yields the concatenation of
its non-empty segments (`''.join([item[0] for item in result[0] if item[0]])`). -/
def translate_to_korean (net : Text → NetResult) (text : Text) : Text :=
  if text.isEmpty || text.all (fun c => c.isWhitespace) then text
  else
    match net text with
    | NetResult.error => text
    | NetResult.ok status segments =>
      if status = 200 then
        match segments with
        | none => text
        | some segs => (segs.filter (fun s => !s.isEmpty)).flatten
      else text

/-- Python `round(q, 1)`: round `10 * q` to an integer, then divide by 10.
(Python uses banker's rounding at midpoints; every value this script rounds
is already an exact multiple of 1/10, where the two conventions agree.) -/
def round1 (q : ℚ) : ℚ := ((round (q * 10) : ℤ) : ℚ) / 10

/-- `AINewsUpdater.calculate_importance`.  Base 7.0; +1.5 for a target
source; +1.5 when some high-impact word occurs in the lowered title
(the `for`/`break` adds the bonus at most once, i.e. iff some word matches);
+0.8 likewise for medium-impact words; +1.0 when some premium source name
is a substring of the source; finally `min(9.5, round(score, 1))`. -/
def calculate_importance (title source : Text) (is_target : Bool) : ℚ :=
  let score : ℚ := 7
  let score := score + (if is_target then 3/2 else 0)
  let title_lower := lower title
  let score := score + (if high_impact.any (fun w => contains_text w title_lower) then 3/2 else 0)
  let score := score + (if medium_impact.any (fun w => contains_text w title_lower) then 4/5 else 0)
  let score := score + (if premium_sources.any (fun s => contains_text s source) then 1 else 0)
  min (19/2) (round1 score)

/-- The per-category match counts of `classify_category`, in taxonomy
order: for each category, how many of its keywords occur (case-insensitive
substring) in the text. -/
def categoryScores (text : Text) : List (Text × Nat) :=
  categories.map fun ck =>
    (ck.1, (ck.2.filter fun kw => contains_text (lower kw) (lower text)).length)

/-- One comparison step of Python `max(..., key=lambda x: x[1])`: the
running maximum `q` is replaced only when the next element has a strictly
larger key. -/
def pyMaxStep {α : Type} (q p : α × Nat) : α × Nat := if p.2 > q.2 then p else q

/-- Python `max(l, key=lambda x: x[1])` on a list of pairs: the left fold
of `pyMaxStep`, hence the first maximal element; `none` on the empty
list (where Python would raise, a case `classify_category` guards by
`if scores:`). -/
def pythonMax {α : Type} : List (α × Nat) → Option (α × Nat)
  | [] => none
  | x :: xs => some (xs.foldl pyMaxStep x)

/-- `AINewsUpdater.classify_category`.  The `scores` defaultdict acquires a
key (in taxonomy iteration order) exactly when a keyword of that category
matches, so its items are the positive entries of `categoryScores`; `max`
over them picks the first highest-scoring category, and an empty dict
falls back to `'chatgpt'`. -/
def classify_category (text : Text) : Text :=
  match pythonMax ((categoryScores text).filter fun p => 0 < p.2) with
  | some r => r.1
  | none => "chatgpt".data

/-- The `for word in important_words` loop of `extract_keywords`: append
each matching not-yet-present word, stopping as soon as the list reaches
3 entries. -/
def extract_loop (title_lower : Text) : List Text → List Text → List Text
  | ks, [] => ks
  | ks, w :: ws =>
    if contains_text (lower w) title_lower && !(ks.contains w) then
      let ks2 := ks ++ [w]
      if 3 ≤ ks2.length then ks2 else extract_loop title_lower ks2 ws
    else extract_loop title_lower ks ws

/-- `AINewsUpdater.extract_keywords`.  `base_keyword.split()[0]` is the
first whitespace-delimited token; when `base_keyword` has no token the
Python subscript raises `IndexError` (caught by the caller's per-item
handler), modelled as `none`. -/
def extract_keywords (title base_keyword : Text) : Option (List Text) :=
  let first := (base_keyword.dropWhile Char.isWhitespace).takeWhile fun c => !c.isWhitespace
  if first.isEmpty then none
  else some ((extract_loop (lower title) [first] important_words).take 3)

/-- Line 143 of the script: truncate the cleaned description to 200
characters plus an ellipsis when it exceeds 200 characters. -/
def truncate_description (s : Text) : Text :=
  if s.length > 200 then s.take 200 ++ "...".data else s

/-- The ambient effects of one run: the translation endpoint, BeautifulSoup
HTML stripping, `calculate_time_ago` (wall-clock and date-library
dependent), and today's formatted date. -/
structure Env where
  net : Text → NetResult
  stripHtml : Text → Text
  time_ago_of : Text → Text
  today : Text

/-- The body of the `for item in items` loop of `fetch_real_news`: parse
one raw entry into a `NewsItem` (with the id `len(self.news_data) +
len(news_items) + 1` passed in as `item_id`).  `none` models the
`IndexError` of `extract_keywords` on a token-less keyword, which the
`except` clause converts into skipping the item. -/
def parse_item (env : Env) (keyword : Text) (item_id : Nat) (e : RawEntry) : Option NewsItem :=
  let title := e.title.getD []
  let link := e.link.getD []
  let pubDate := e.pubDate.getD []
  let description := e.description.getD []
  let source := e.source.getD "News".data
  let link_lower := lower link
  let is_target_source := target_sources.any fun t => contains_text t link_lower
  let description_clean := truncate_description (env.stripHtml description)
  let time_ago := env.time_ago_of pubDate
  let category := classify_category (title ++ " ".data ++ description_clean)
  let importance := calculate_importance title source is_target_source
  match extract_keywords title keyword with
  | none => none
  | some keywords_list =>
    let title_ko := translate_to_korean env.net title
    let description_ko :=
      if description_clean.isEmpty then title_ko ++ "에 대한 최신 소식입니다.".data
      else translate_to_korean env.net description_clean
    some { id := item_id, title := title_ko, source := source, category := category,
           date := env.today, time := time_ago, importance := importance,
           description := description_ko, link := link, keywords := keywords_list }

/-- The accumulation loop of `fetch_real_news`: append each successfully
parsed item and break once `max_items` items have accumulated. -/
def fetch_loop (env : Env) (keyword : Text) (max_items prev_count : Nat) :
    List RawEntry → List NewsItem → List NewsItem
  | [], acc => acc
  | e :: es, acc =>
    match parse_item env keyword (prev_count + acc.length + 1) e with
    | none => fetch_loop env keyword max_items prev_count es acc
    | some item =>
      let acc2 := acc ++ [item]
      if max_items ≤ acc2.length then acc2
      else fetch_loop env keyword max_items prev_count es acc2

/-- `AINewsUpdater.fetch_real_news`, with the feed response as data:
`none` is a raised network error (caught, returning the empty list so
far), `some (status, entries)` a response.  A non-200 status returns the
empty list; otherwise the first `max_items * 2` entries are scanned. -/
def fetch_real_news (env : Env) (keyword : Text) (max_items prev_count : Nat)
    (response : Option (Nat × List RawEntry)) : List NewsItem :=
  match response with
  | none => []
  | some (status, entries) =>
    if status ≠ 200 then []
    else fetch_loop env keyword max_items prev_count (entries.take (max_items * 2)) []

/-- The `seen`-set deduplication loop of `search_ai_news`: keep an item
exactly when its key is not in `seen`, recording kept keys. -/
def dedupBy {α β : Type} [DecidableEq β] (key : α → β) : List β → List α → List α
  | _, [] => []
  | seen, x :: xs =>
    if key x ∈ seen then dedupBy key seen xs
    else x :: dedupBy key (key x :: seen) xs

/-- The comparator of `unique_news.sort(key=lambda x: x['importance'],
reverse=True)`: descending by importance (a stable sort keeps ties in
prior order). -/
def importance_desc (a b : NewsItem) : Bool := decide (b.importance ≤ a.importance)

/-- The post-collection part of `AINewsUpdater.search_ai_news` (lines
98-109): deduplicate the accumulated `self.news_data` by title digest,
sort by importance descending (Python's sort is stable, modelled by
`mergeSort`), and truncate to 100 items.  The md5 hexdigest is the
parameter `hash`. -/
def search_ai_news {β : Type} [DecidableEq β] (hash : Text → β)
    (collected : List NewsItem) : List NewsItem :=
  let unique_news := dedupBy (fun it => hash it.title) [] collected
  let sorted := unique_news.mergeSort importance_desc
  sorted.take 100

/-- `AINewsUpdater.get_default_news`: the fixed fallback item set
(dates are `datetime.now().strftime('%Y-%m-%d')`, the `today` field of
the environment). -/
def get_default_news (today : Text) : List NewsItem :=
  [{ id := 1, title := "OpenAI 최신 AI 모델 발표".data, source := "TechCrunch".data,
     category := "chatgpt".data, date := today, time := "2시간 전".data,
     importance := 19/2,
     description := "OpenAI가 최신 AI 모델을 공개하며 업계에 새로운 기준을 제시했습니다.".data,
     link := "https://www.google.com/search?q=OpenAI+latest+news".data,
     keywords := ["OpenAI".data, "AI".data, "ChatGPT".data] },
   { id := 2, title := "Google Gemini 주요 업데이트".data, source := "The Verge".data,
     category := "gemini".data, date := today, time := "4시간 전".data,
     importance := 44/5,
     description := "Google이 Gemini의 대규모 업데이트를 발표했습니다.".data,
     link := "https://www.google.com/search?q=Google+Gemini+update".data,
     keywords := ["Google".data, "Gemini".data, "AI".data] },
   { id := 3, title := "DeepSeek 새로운 모델 출시".data, source := "Ars Technica".data,
     category := "deepseek".data, date := today, time := "6시간 전".data,
     importance := 17/2,
     description := "DeepSeek이 혁신적인 새 모델을 공개했습니다.".data,
     link := "https://www.google.com/search?q=DeepSeek+AI+model".data,
     keywords := ["DeepSeek".data, "AI".data, "LLM".data] }]

/-- `AINewsUpdater.generate_html`: substitute the default set when the
collected list is empty; reading the template can fail (raise), modelled
by `template_readable`.  The textual regex substitution into the template
is not modelled; we track the news list that gets serialized into the
document. -/
def generate_html (news_data : List NewsItem) (today : Text)
    (template_readable : Bool) : Option (List NewsItem) :=
  let data := if news_data.isEmpty then get_default_news today else news_data
  if template_readable then some data else none

/-- `AINewsUpdater.run` (together with `save_html` and `main`): returns the
process exit code and the news list written into the document (`none` when
the run aborts).  A template read failure or a write failure raises, is
caught at the top of `run`, and yields exit code 1. -/
def run (collected : List NewsItem) (today : Text)
    (template_readable write_ok : Bool) : Nat × Option (List NewsItem) :=
  match generate_html collected today template_readable with
  | none => (1, none)
  | some data => if write_ok then (0, some data) else (1, none)

/-! ### Lemmas about the importance scorer -/

/-- `calculate_importance` with its `let` chain flattened. -/
theorem calculate_importance_def (title source : Text) (b : Bool) :
    calculate_importance title source b =
      min (19/2) (round1 ((7 : ℚ) + (if b then 3/2 else 0)
        + (if high_impact.any (fun w => contains_text w (lower title)) then 3/2 else 0)
        + (if medium_impact.any (fun w => contains_text w (lower title)) then 4/5 else 0)
        + (if premium_sources.any (fun s => contains_text s source) then 1 else 0))) := rfl

/-- Rounding to one decimal fixes any exact multiple of one tenth. -/
theorem round1_div_ten (k : ℕ) : round1 ((k : ℚ) / 10) = (k : ℚ) / 10 := by
  unfold round1
  rw [div_mul_cancel₀ _ (by norm_num : (10 : ℚ) ≠ 0), round_natCast]
  push_cast
  ring

/-- The pre-clamp score is an exact number of tenths, with the numerator
determined by the four bonus conditions. -/
theorem score_eq (b1 b2 b3 b4 : Bool) :
    (7 : ℚ) + (if b1 then 3/2 else 0) + (if b2 then 3/2 else 0)
        + (if b3 then 4/5 else 0) + (if b4 then 1 else 0)
      = ((70 + (if b1 then 15 else 0) + (if b2 then 15 else 0)
          + (if b3 then 8 else 0) + (if b4 then 10 else 0) : ℕ) : ℚ) / 10 := by
  cases b1 <;> cases b2 <;> cases b3 <;> cases b4 <;> norm_num

/-- Every importance score is the clamp of `k / 10` for some `k ≥ 70`. -/
theorem calculate_importance_shape (title source : Text) (b : Bool) :
    ∃ k : ℕ, 70 ≤ k ∧ calculate_importance title source b = min (19/2) ((k : ℚ) / 10) := by
  rw [calculate_importance_def]
  generalize (high_impact.any fun w => contains_text w (lower title)) = b2
  generalize (medium_impact.any fun w => contains_text w (lower title)) = b3
  generalize (premium_sources.any fun s => contains_text s source) = b4
  refine ⟨70 + (if b then 15 else 0) + (if b2 then 15 else 0)
      + (if b3 then 8 else 0) + (if b4 then 10 else 0), ?_, ?_⟩
  · omega
  · rw [score_eq b b2 b3 b4, round1_div_ten]

/-- C1: for every title string, source string and preferred-source flag, the
importance score returned by `calculate_importance` lies in the closed
interval [7.0, 9.5] and is an exact multiple of one tenth (at most one
decimal digit). -/
theorem c1_importance_bounded (title source : Text) (b : Bool) :
    7 ≤ calculate_importance title source b
      ∧ calculate_importance title source b ≤ 19/2
      ∧ ∃ n : ℤ, calculate_importance title source b * 10 = (n : ℚ) := by
  obtain ⟨k, hk, hval⟩ := calculate_importance_shape title source b
  rw [hval]
  refine ⟨le_min (by norm_num) ?_, min_le_left _ _, ?_⟩
  · rw [le_div_iff₀ (by norm_num : (0 : ℚ) < 10)]
    exact_mod_cast by omega
  · rcases le_total ((19 : ℚ)/2) ((k : ℚ)/10) with h | h
    · rw [min_eq_left h]; exact ⟨95, by norm_num⟩
    · rw [min_eq_right h]
      refine ⟨k, ?_⟩
      rw [div_mul_cancel₀ _ (by norm_num : (10 : ℚ) ≠ 0)]
      norm_cast

/-- C6: the title "DeepSeek unveils new AI model" from source "TechCrunch"
with the preferred-source flag unset scores exactly 9.5. -/
theorem c6_deepseek_unveils_scenario :
    calculate_importance "DeepSeek unveils new AI model".data "TechCrunch".data false
      = 19/2 := by
  have h1 : (high_impact.any fun w =>
      contains_text w (lower "DeepSeek unveils new AI model".data)) = true := by decide
  have h2 : (medium_impact.any fun w =>
      contains_text w (lower "DeepSeek unveils new AI model".data)) = false := by decide
  have h3 : (premium_sources.any fun s => contains_text s "TechCrunch".data) = true := by decide
  have h95 : round1 ((95 : ℕ) / 10 : ℚ) = ((95 : ℕ) : ℚ) / 10 := round1_div_ten 95
  rw [calculate_importance_def, h1, h2, h3]
  norm_num at h95 ⊢
  rw [h95]

/-! ### Description truncation -/

/-- C9: the cleaned description is truncated to its first 200 characters
followed by the three-character ellipsis marker exactly when it exceeds
200 characters, and is left unchanged otherwise. -/
theorem c9_truncate_description (s : Text) :
    (s.length > 200 →
        truncate_description s = s.take 200 ++ "...".data
          ∧ (truncate_description s).length = 203)
      ∧ (s.length ≤ 200 → truncate_description s = s) := by
  unfold truncate_description
  constructor
  · intro h
    rw [if_pos h]
    refine ⟨rfl, ?_⟩
    have : (s.take 200).length = 200 := by
      rw [List.length_take]
      omega
    simp [this]
  · intro h
    rw [if_neg (by omega)]

/-- Witness for C9 on a 201-character description and on a short one. -/
theorem c9_truncate_description_witness :
    (truncate_description (List.replicate 201 'a')
        = (List.replicate 201 'a').take 200 ++ "...".data
      ∧ (truncate_description (List.replicate 201 'a')).length = 203)
    ∧ truncate_description "short".data = "short".data := by
  refine ⟨(c9_truncate_description (List.replicate 201 'a')).1 ?_,
    (c9_truncate_description "short".data).2 (by decide)⟩
  rw [List.length_replicate]
  omega

/-! ### Translator pass-through -/

/-- Failure of the translation call: a raised network error, a non-200
status, or a 200 response whose body does not have the expected nested
array shape. -/
def translateFailure : NetResult → Prop
  | NetResult.error => True
  | NetResult.ok status segments => status ≠ 200 ∨ segments = none

/-- A failing translation call passes the input through unchanged. -/
theorem translate_failure_passthrough (net : Text → NetResult) (text : Text)
    (hf : translateFailure (net text)) : translate_to_korean net text = text := by
  unfold translate_to_korean
  split
  · rfl
  · cases hnet : net text with
    | error => rfl
    | ok status segments =>
      rw [hnet] at hf
      have hf2 : status ≠ 200 ∨ segments = none := hf
      rcases hf2 with h | h
      · show (if status = 200 then _ else text) = text
        rw [if_neg h]
      · subst h
        show (if status = 200 then text else text) = text
        rw [ite_self]

/-- Blank input passes through without consulting the network. -/
theorem translate_blank_passthrough (net : Text → NetResult) (text : Text)
    (hblank : ∀ c ∈ text, c.isWhitespace = true) :
    translate_to_korean net text = text := by
  unfold translate_to_korean
  have hcond : (text.isEmpty || text.all fun c => c.isWhitespace) = true := by
    rw [Bool.or_eq_true, List.all_eq_true]
    exact Or.inr hblank
  rw [if_pos hcond]

/-- C5: whenever the translation call fails in any way the input is
returned unchanged; and blank (empty or whitespace-only) input is returned
unchanged for every possible network, i.e. without consulting it. -/
theorem c5_translate_passthrough (text : Text) (net : Text → NetResult) :
    (translateFailure (net text) → translate_to_korean net text = text)
    ∧ ((∀ c ∈ text, c.isWhitespace = true) →
        ∀ net2 : Text → NetResult, translate_to_korean net2 text = text) :=
  ⟨translate_failure_passthrough net text,
    fun hblank net2 => translate_blank_passthrough net2 text hblank⟩

/-- Witness for C5: a network error, a 500 status, a malformed 200 body,
and whitespace-only input, each passed through unchanged. -/
theorem c5_translate_passthrough_witness :
    translate_to_korean (fun _ => NetResult.error) "hello".data = "hello".data
    ∧ translate_to_korean (fun _ => NetResult.ok 500 (some ["안녕".data])) "hello".data
        = "hello".data
    ∧ translate_to_korean (fun _ => NetResult.ok 200 none) "hello".data = "hello".data
    ∧ translate_to_korean (fun _ => NetResult.ok 200 (some ["안녕".data])) "  ".data
        = "  ".data := by
  refine ⟨(c5_translate_passthrough "hello".data (fun _ => NetResult.error)).1 trivial,
    (c5_translate_passthrough "hello".data
      (fun _ => NetResult.ok 500 (some ["안녕".data]))).1 (Or.inl (by decide)),
    (c5_translate_passthrough "hello".data (fun _ => NetResult.ok 200 none)).1 (Or.inr rfl),
    (c5_translate_passthrough "  ".data
      (fun _ => NetResult.ok 200 (some ["안녕".data]))).2 (by decide)
      (fun _ => NetResult.ok 200 (some ["안녕".data]))⟩

/-! ### Empty-collection fallback -/

/-- C7: when the collected list is empty and the output document is
readable and writable, the run publishes the built-in default set (which
has between 2 and 3 items — exactly 3) and exits with code 0. -/
theorem c7_empty_fallback (collected : List NewsItem) (today : Text)
    (h : collected = []) :
    run collected today true true = (0, some (get_default_news today))
      ∧ (get_default_news today).length = 3
      ∧ 2 ≤ (get_default_news today).length
      ∧ (get_default_news today).length ≤ 3 := by
  subst h
  exact ⟨rfl, rfl, by norm_num [get_default_news], by norm_num [get_default_news]⟩

/-- Witness for C7 at a concrete date. -/
theorem c7_empty_fallback_witness :
    run [] "2025-10-12".data true true
        = (0, some (get_default_news "2025-10-12".data))
      ∧ (get_default_news "2025-10-12".data).length = 3 := by
  have h := c7_empty_fallback [] "2025-10-12".data rfl
  exact ⟨h.1, h.2.1⟩

/-! ### The classifier returns the first highest-scoring category -/

theorem le_pyMaxStep_left {α : Type} (q p : α × Nat) : q.2 ≤ (pyMaxStep q p).2 := by
  unfold pyMaxStep
  split <;> omega

theorem le_pyMaxStep_right {α : Type} (q p : α × Nat) : p.2 ≤ (pyMaxStep q p).2 := by
  unfold pyMaxStep
  split <;> omega

/-- The fold of `pyMaxStep` returns an element of the scanned list. -/
theorem foldl_pyMax_mem {α : Type} :
    ∀ (xs : List (α × Nat)) (x : α × Nat), xs.foldl pyMaxStep x ∈ x :: xs := by
  intro xs
  induction xs with
  | nil => intro x; simp
  | cons y ys ih =>
    intro x
    have h := ih (pyMaxStep x y)
    have hstep : pyMaxStep x y = y ∨ pyMaxStep x y = x := by
      unfold pyMaxStep
      split <;> simp
    rw [List.foldl_cons]
    rcases List.mem_cons.mp h with h0 | h0
    · rw [h0]
      rcases hstep with hs | hs <;> rw [hs] <;> simp
    · exact List.mem_cons_of_mem _ (List.mem_cons_of_mem _ h0)

/-- The fold of `pyMaxStep` dominates every scanned element's key. -/
theorem foldl_pyMax_ge {α : Type} :
    ∀ (xs : List (α × Nat)) (x p : α × Nat), p ∈ x :: xs → p.2 ≤ (xs.foldl pyMaxStep x).2 := by
  intro xs
  induction xs with
  | nil =>
    intro x p hp
    rw [List.mem_singleton] at hp
    subst hp
    simp
  | cons y ys ih =>
    intro x p hp
    rw [List.foldl_cons]
    rcases List.mem_cons.mp hp with h0 | h0
    · subst h0
      exact le_trans (le_pyMaxStep_left p y) (ih (pyMaxStep p y) _ (List.mem_cons_self _ _))
    rcases List.mem_cons.mp h0 with h1 | h1
    · subst h1
      exact le_trans (le_pyMaxStep_right x p) (ih (pyMaxStep x p) _ (List.mem_cons_self _ _))
    · exact ih (pyMaxStep x y) p (List.mem_cons_of_mem _ h1)

/-- The fold of `pyMaxStep` is the FIRST maximal element: everything
strictly before it in the scanned list has a strictly smaller key. -/
theorem foldl_pyMax_first {α : Type} :
    ∀ (xs : List (α × Nat)) (x : α × Nat), ∃ l1 l2,
      x :: xs = l1 ++ (xs.foldl pyMaxStep x) :: l2
        ∧ ∀ p ∈ l1, p.2 < (xs.foldl pyMaxStep x).2 := by
  intro xs
  induction xs with
  | nil => intro x; exact ⟨[], [], rfl, by simp⟩
  | cons y ys ih =>
    intro x
    rw [List.foldl_cons]
    by_cases hy : y.2 > x.2
    · have hstep : pyMaxStep x y = y := by unfold pyMaxStep; rw [if_pos hy]
      rw [hstep]
      obtain ⟨l1, l2, hsplit, hlt⟩ := ih y
      have hxr : x.2 < (ys.foldl pyMaxStep y).2 :=
        lt_of_lt_of_le hy (foldl_pyMax_ge ys y y (List.mem_cons_self _ _))
      refine ⟨x :: l1, l2, ?_, ?_⟩
      · rw [List.cons_append, ← hsplit]
      · intro p hp
        rcases List.mem_cons.mp hp with h0 | h0
        · subst h0; exact hxr
        · exact hlt p h0
    · have hstep : pyMaxStep x y = x := by unfold pyMaxStep; rw [if_neg hy]
      rw [hstep]
      obtain ⟨l1, l2, hsplit, hlt⟩ := ih x
      cases l1 with
      | nil =>
        rw [List.nil_append, List.cons.injEq] at hsplit
        obtain ⟨hr, -⟩ := hsplit
        refine ⟨[], y :: ys, ?_, by simp⟩
        rw [List.nil_append, ← hr]
      | cons a l1t =>
        rw [List.cons_append, List.cons.injEq] at hsplit
        obtain ⟨hax, hys⟩ := hsplit
        subst hax
        have hxlt : x.2 < (ys.foldl pyMaxStep x).2 := hlt x (List.mem_cons_self _ _)
        have hylt : y.2 < (ys.foldl pyMaxStep x).2 := lt_of_le_of_lt (by omega) hxlt
        refine ⟨x :: y :: l1t, l2, ?_, ?_⟩
        · conv_lhs => rw [hys]
          rw [List.cons_append, List.cons_append]
        · intro p hp
          rcases List.mem_cons.mp hp with h0 | h0
          · subst h0; exact hxlt
          rcases List.mem_cons.mp h0 with h1 | h1
          · subst h1; exact hylt
          · exact hlt p (List.mem_cons_of_mem _ h1)

/-- Lift a first-maximum split of the positive-score sublist back to the
full score list: skipped entries all have score zero, which is below the
(positive) maximum. -/
theorem filter_pos_split {α : Type} {r : α × Nat} (hr : 0 < r.2) :
    ∀ {l m1 m2 : List (α × Nat)},
      l.filter (fun p => 0 < p.2) = m1 ++ r :: m2 →
      (∀ p ∈ m1, p.2 < r.2) →
      ∃ l1 l2, l = l1 ++ r :: l2 ∧ ∀ p ∈ l1, p.2 < r.2 := by
  intro l
  induction l with
  | nil =>
    intro m1 m2 hf
    rw [List.filter_nil] at hf
    exact absurd hf (by cases m1 <;> simp)
  | cons x l ih =>
    intro m1 m2 hf hm1
    by_cases hx : 0 < x.2
    · rw [List.filter_cons, if_pos (by simpa using hx)] at hf
      cases m1 with
      | nil =>
        rw [List.nil_append, List.cons.injEq] at hf
        obtain ⟨hxr, -⟩ := hf
        subst hxr
        exact ⟨[], l, rfl, by simp⟩
      | cons a m1t =>
        rw [List.cons_append, List.cons.injEq] at hf
        obtain ⟨hxa, hfl⟩ := hf
        obtain ⟨l1, l2, hsplit, hlt⟩ := ih hfl (fun p hp => hm1 p (List.mem_cons_of_mem _ hp))
        refine ⟨x :: l1, l2, by rw [hsplit, List.cons_append], ?_⟩
        intro p hp
        rcases List.mem_cons.mp hp with h0 | h0
        · subst h0
          exact hxa ▸ hm1 a (List.mem_cons_self _ _)
        · exact hlt p h0
    · rw [List.filter_cons, if_neg (by simpa using hx)] at hf
      obtain ⟨l1, l2, hsplit, hlt⟩ := ih hf hm1
      refine ⟨x :: l1, l2, by rw [hsplit, List.cons_append], ?_⟩
      intro p hp
      rcases List.mem_cons.mp hp with h0 | h0
      · subst h0; omega
      · exact hlt p h0

/-- C4: the classifier always returns a key of the taxonomy; it returns
the default `'chatgpt'` when every category scores zero; and in general
its result sits in the score list with a score dominating all entries,
every earlier entry scoring strictly less (first-defined tie-break). -/
theorem c4_classifier (text : Text) :
    classify_category text ∈ categoryKeys
      ∧ ((∀ p ∈ categoryScores text, p.2 = 0) → classify_category text = "chatgpt".data)
      ∧ ∃ s l1 l2,
          categoryScores text = l1 ++ (classify_category text, s) :: l2
            ∧ (∀ p ∈ l1, p.2 < s)
            ∧ ∀ p ∈ categoryScores text, p.2 ≤ s := by
  have hmapfst : (categoryScores text).map Prod.fst = categoryKeys := rfl
  cases hpos : (categoryScores text).filter (fun p => 0 < p.2) with
  | nil =>
    have hzero : ∀ p ∈ categoryScores text, p.2 = 0 := by
      intro p hp
      have h1 := List.filter_eq_nil_iff.mp hpos p hp
      have h2 : ¬0 < p.2 := by simpa using h1
      omega
    have hcls : classify_category text = "chatgpt".data := by
      unfold classify_category
      rw [hpos]
      rfl
    refine ⟨by rw [hcls]; decide, fun _ => hcls, ?_⟩
    cases hcs : categoryScores text with
    | nil =>
      exfalso
      have h1 := hmapfst
      rw [hcs] at h1
      exact absurd h1 (by decide)
    | cons q rest =>
      obtain ⟨qa, qb⟩ := q
      have h1 := hmapfst
      rw [hcs, List.map_cons] at h1
      have h3 : categoryKeys = "chatgpt".data
          :: ("gemini".data :: "deepseek".data :: "qwen".data :: "kimi".data :: []) := rfl
      rw [h3] at h1
      have h2 : qa = "chatgpt".data := by
        injection h1 with hh ht
      have h4 : qb = 0 := hzero (qa, qb) (by rw [hcs]; exact List.mem_cons_self _ _)
      subst h2
      subst h4
      exact ⟨0, [], rest, by rw [hcls, List.nil_append], by simp,
        fun p hp => by rw [hzero p (by rw [hcs]; exact hp)]⟩
  | cons x xs =>
    set r := xs.foldl pyMaxStep x with hrdef
    have hcls : classify_category text = r.1 := by
      unfold classify_category
      rw [hpos, hrdef]
      rfl
    have hrpos : r ∈ (categoryScores text).filter (fun p => 0 < p.2) := by
      rw [hpos]
      exact foldl_pyMax_mem xs x
    have hrmem : r ∈ categoryScores text := (List.mem_filter.mp hrpos).1
    have hr2 : 0 < r.2 := by simpa using (List.mem_filter.mp hrpos).2
    obtain ⟨m1, m2, hm, hm1⟩ := foldl_pyMax_first xs x
    obtain ⟨l1, l2, hsplit, hlt⟩ := filter_pos_split hr2 (hpos.trans hm) hm1
    have hge : ∀ p ∈ categoryScores text, p.2 ≤ r.2 := by
      intro p hp
      by_cases hp2 : 0 < p.2
      · have : p ∈ (categoryScores text).filter (fun p => 0 < p.2) :=
          List.mem_filter.mpr ⟨hp, by simpa using hp2⟩
        rw [hpos] at this
        exact foldl_pyMax_ge xs x p this
      · omega
    refine ⟨?_, ?_, r.2, l1, l2, ?_, hlt, hge⟩
    · rw [hcls, ← hmapfst]
      exact List.mem_map_of_mem Prod.fst hrmem
    · intro hzero
      exact absurd (hzero r hrmem) (by omega)
    · rw [hcls]
      exact hsplit

/-- Witness for C4 at a concrete text. -/
theorem c4_classifier_witness :
    classify_category "Alibaba AI ships a new Qwen model".data ∈ categoryKeys :=
  (c4_classifier "Alibaba AI ships a new Qwen model".data).1

/-! ### Deduplication and ranking -/

/-- Deduplication yields a sublist of the input (input items, in input
order). -/
theorem dedupBy_sublist {α β : Type} [DecidableEq β] (key : α → β) :
    ∀ (seen : List β) (l : List α), (dedupBy key seen l).Sublist l := by
  intro seen l
  induction l generalizing seen with
  | nil => exact List.Sublist.refl []
  | cons x xs ih =>
    unfold dedupBy
    split
    · exact (ih seen).cons x
    · exact (ih (key x :: seen)).cons₂ x

/-- The kept items have pairwise distinct keys, none of which was already
in `seen`. -/
theorem dedupBy_nodup {α β : Type} [DecidableEq β] (key : α → β) :
    ∀ (seen : List β) (l : List α),
      ((dedupBy key seen l).map key).Nodup
        ∧ ∀ y ∈ dedupBy key seen l, key y ∉ seen := by
  intro seen l
  induction l generalizing seen with
  | nil => exact ⟨List.Pairwise.nil, by simp [dedupBy]⟩
  | cons x xs ih =>
    unfold dedupBy
    split
    · exact ih seen
    · rename_i hx
      obtain ⟨hnd, hfresh⟩ := ih (key x :: seen)
      refine ⟨?_, ?_⟩
      · rw [List.map_cons, List.nodup_cons]
        refine ⟨?_, hnd⟩
        intro hmem
        obtain ⟨y, hy, hky⟩ := List.mem_map.mp hmem
        exact hfresh y hy (hky ▸ List.mem_cons_self _ _)
      · intro y hy
        rcases List.mem_cons.mp hy with h0 | h0
        · subst h0; exact hx
        · exact fun hc => hfresh y h0 (List.mem_cons_of_mem _ hc)

/-- Every input key not already seen is represented among the kept
items. -/
theorem dedupBy_coverage {α β : Type} [DecidableEq β] (key : α → β) :
    ∀ (seen : List β) (l : List α), ∀ x ∈ l,
      key x ∈ seen ∨ ∃ y ∈ dedupBy key seen l, key y = key x := by
  intro seen l
  induction l generalizing seen with
  | nil => simp
  | cons a xs ih =>
    intro x hx
    unfold dedupBy
    by_cases ha : key a ∈ seen
    · rw [if_pos ha]
      rcases List.mem_cons.mp hx with h0 | h0
      · subst h0; exact Or.inl ha
      · exact ih seen x h0
    · rw [if_neg ha]
      rcases List.mem_cons.mp hx with h0 | h0
      · exact Or.inr ⟨a, List.mem_cons_self _ _, by rw [h0]⟩
      · rcases ih (key a :: seen) x h0 with h1 | ⟨y, hy, hk⟩
        · rcases List.mem_cons.mp h1 with h2 | h2
          · exact Or.inr ⟨a, List.mem_cons_self _ _, h2.symm⟩
          · exact Or.inl h2
        · exact Or.inr ⟨y, List.mem_cons_of_mem _ hy, hk⟩

/-- Each kept item is the first input item bearing its key. -/
theorem dedupBy_first {α β : Type} [DecidableEq β] (key : α → β) :
    ∀ (seen : List β) (l : List α), ∀ y ∈ dedupBy key seen l,
      l.find? (fun a => decide (key a = key y)) = some y := by
  intro seen l
  induction l generalizing seen with
  | nil => simp [dedupBy]
  | cons a xs ih =>
    intro y hy
    rw [dedupBy] at hy
    by_cases ha : key a ∈ seen
    · rw [if_pos ha] at hy
      have hne : key a ≠ key y := by
        intro hc
        exact (dedupBy_nodup key seen xs).2 y hy (hc ▸ ha)
      rw [List.find?_cons_of_neg _ (by simpa using hne)]
      exact ih seen y hy
    · rw [if_neg ha] at hy
      rcases List.mem_cons.mp hy with h0 | h0
      · subst h0
        exact List.find?_cons_of_pos _ (by simp)
      · have hfresh := (dedupBy_nodup key (key a :: seen) xs).2 y h0
        have hne : key a ≠ key y := by
          intro hc
          exact hfresh (hc ▸ List.mem_cons_self _ _)
        rw [List.find?_cons_of_neg _ (by simpa using hne)]
        exact ih (key a :: seen) y h0

/-- A duplicate-free sublist is no longer than the deduplicated full
list. -/
theorem nodup_sublist_length_le_dedup {γ : Type} [DecidableEq γ] {u l : List γ}
    (hs : u.Sublist l) (hn : u.Nodup) : u.length ≤ l.dedup.length := by
  have hsub : u ⊆ l.dedup := fun x hx => List.mem_dedup.mpr (hs.subset hx)
  exact (List.subperm_of_subset hn hsub).length_le

/-- C2: deduplication keeps, for each distinct title hash of the input,
exactly one item — the first-encountered one in input order — and the
final truncated list is no longer than `min M 100` where `M` is the number
of distinct titles. -/
theorem c2_dedup_truncate {β : Type} [DecidableEq β] (hash : Text → β)
    (collected : List NewsItem) :
    (∀ x ∈ collected, ∃ y ∈ dedupBy (fun it => hash it.title) [] collected,
        hash y.title = hash x.title)
      ∧ ((dedupBy (fun it => hash it.title) [] collected).map
          (fun it => hash it.title)).Nodup
      ∧ (∀ y ∈ dedupBy (fun it => hash it.title) [] collected,
          collected.find? (fun a => decide (hash a.title = hash y.title)) = some y)
      ∧ (dedupBy (fun it => hash it.title) [] collected).Sublist collected
      ∧ (search_ai_news hash collected).length
          ≤ min ((collected.map NewsItem.title).dedup.length) 100 := by
  refine ⟨?_, (dedupBy_nodup _ [] collected).1, dedupBy_first _ [] collected,
    dedupBy_sublist _ [] collected, ?_⟩
  · intro x hx
    rcases dedupBy_coverage (fun it => hash it.title) [] collected x hx with h | h
    · exact absurd h (List.not_mem_nil _)
    · exact h
  · have hlen : (search_ai_news hash collected).length
        = min 100 (dedupBy (fun it => hash it.title) [] collected).length := by
      show (((dedupBy (fun it => hash it.title) [] collected).mergeSort
          importance_desc).take 100).length = _
      rw [List.length_take, List.length_mergeSort]
    have hnd : ((dedupBy (fun it => hash it.title) [] collected).map
        NewsItem.title).Nodup := by
      have h1 := (dedupBy_nodup (fun it => hash it.title) [] collected).1
      have h2 : (dedupBy (fun it => hash it.title) [] collected).map
          (fun it => hash it.title)
          = ((dedupBy (fun it => hash it.title) [] collected).map
              NewsItem.title).map hash := by
        rw [List.map_map]
        rfl
      rw [h2] at h1
      exact h1.of_map hash
    have hsub : ((dedupBy (fun it => hash it.title) [] collected).map
        NewsItem.title).Sublist (collected.map NewsItem.title) :=
      (dedupBy_sublist _ [] collected).map NewsItem.title
    have hM : (dedupBy (fun it => hash it.title) [] collected).length
        ≤ (collected.map NewsItem.title).dedup.length := by
      have := nodup_sublist_length_le_dedup hsub hnd
      rwa [List.length_map] at this
    rw [hlen]
    exact le_min ((min_le_right _ _).trans hM) (min_le_left _ _)

/-- C3: the ranked output is sorted by importance in descending order, and
items of equal importance keep their relative input order (stability of
the sort). -/
theorem c3_rank_sorted_stable (l : List NewsItem) :
    ((l.mergeSort importance_desc).Pairwise fun a b => b.importance ≤ a.importance)
      ∧ ∀ v : ℚ, (l.filter fun x => decide (x.importance = v)).Sublist
          (l.mergeSort importance_desc) := by
  have htrans : ∀ a b c : NewsItem, importance_desc a b → importance_desc b c →
      importance_desc a c := by
    intro a b c hab hbc
    simp only [importance_desc, decide_eq_true_eq] at *
    exact le_trans hbc hab
  have htotal : ∀ a b : NewsItem, importance_desc a b || importance_desc b a := by
    intro a b
    simp only [importance_desc, Bool.or_eq_true, decide_eq_true_eq]
    exact le_total b.importance a.importance
  constructor
  · have h := List.sorted_mergeSort htrans htotal l
    exact h.imp fun hab => by simpa [importance_desc] using hab
  · intro v
    apply List.sublist_mergeSort htrans htotal
    · apply List.pairwise_of_forall_mem_list
      intro a ha b hb
      have ha2 : a.importance = v := by
        have := (List.mem_filter.mp ha).2
        simpa using this
      have hb2 : b.importance = v := by
        have := (List.mem_filter.mp hb).2
        simpa using this
      simp [importance_desc, ha2, hb2]
    · exact List.filter_sublist l

/-! ### Fetch loop bound -/

/-- The accumulation loop never grows past `max_items` once below it. -/
theorem fetch_loop_length_le (env : Env) (keyword : Text) (max_items prev_count : Nat) :
    ∀ (es : List RawEntry) (acc : List NewsItem), acc.length < max_items →
      (fetch_loop env keyword max_items prev_count es acc).length ≤ max_items := by
  intro es
  induction es with
  | nil =>
    intro acc h
    rw [fetch_loop]
    omega
  | cons e es ih =>
    intro acc h
    rw [fetch_loop]
    split
    · exact ih acc h
    · show (if max_items ≤ (acc ++ [_]).length then acc ++ [_]
        else fetch_loop env keyword max_items prev_count es (acc ++ [_])).length ≤ max_items
      split
      · rename_i hle
        simp only [List.length_append, List.length_cons, List.length_nil] at hle ⊢
        omega
      · apply ih
        rename_i hnot
        simp only [List.length_append, List.length_cons, List.length_nil] at hnot ⊢
        omega

/-- C10: for every keyword and bound, `fetch_real_news` returns at most
`max_items` parsed items, whatever the feed response contains. -/
theorem c10_fetch_bounded (env : Env) (keyword : Text) (max_items prev_count : Nat)
    (response : Option (Nat × List RawEntry)) :
    (fetch_real_news env keyword max_items prev_count response).length ≤ max_items := by
  unfold fetch_real_news
  cases response with
  | none => simp
  | some sr =>
    obtain ⟨status, entries⟩ := sr
    show (if status ≠ 200 then []
        else fetch_loop env keyword max_items prev_count
          (entries.take (max_items * 2)) []).length ≤ max_items
    by_cases hs : status ≠ 200
    · rw [if_pos hs]
      simp
    · rw [if_neg hs]
      by_cases hm : max_items = 0
      · subst hm
        have h02 : (0 : Nat) * 2 = 0 := rfl
        rw [h02, List.take_zero, fetch_loop]
        simp
      · exact fetch_loop_length_le env keyword max_items prev_count _ []
          (by simp; omega)

/-! ### Parsed titles -/

/-- A concrete environment for exercising the item parser: the translation
endpoint is unreachable, HTML stripping is the identity (no markup), and
the time formatter returns the parser's own fallback literal. -/
def probeEnv : Env :=
  { net := fun _ => NetResult.error
    stripHtml := id
    time_ago_of := fun _ => "최근".data
    today := "2025-10-12".data }

/-- A raw feed entry with no children at all (in particular no `title`
element). -/
def emptyEntry : RawEntry :=
  { title := none, link := none, pubDate := none, description := none, source := none }

/-- Counterexample to C8 as stated: a raw feed entry without a `title`
element parses successfully, producing a NewsItem whose title is the empty
string. -/
theorem c8_counterexample_empty_title :
    (parse_item probeEnv "ChatGPT OpenAI".data 1 emptyEntry).map NewsItem.title
      = some [] := rfl

/-- C8 (amended): the parsed title is the translation of the entry's title
text, so it is non-empty whenever the entry carries non-empty title text
and the translation call fails (pass-through); an absent title element,
however, yields the empty string. -/
theorem c8_title_amended (env : Env) (keyword : Text) (item_id : Nat) (e : RawEntry)
    (item : NewsItem) (t : Text)
    (hparse : parse_item env keyword item_id e = some item)
    (htitle : e.title = some t) (hne : t ≠ [])
    (hfail : translateFailure (env.net t)) :
    item.title ≠ [] := by
  rw [parse_item, htitle] at hparse
  cases hek : extract_keywords ((some t).getD []) keyword with
  | none =>
    rw [hek] at hparse
    exact absurd hparse (by simp)
  | some kl =>
    rw [hek] at hparse
    have h2 := Option.some.inj hparse
    rw [← h2]
    show translate_to_korean env.net t ≠ []
    rw [translate_failure_passthrough env.net t hfail]
    exact hne

/-- Witness for the amended C8 at a concrete entry and environment. -/
theorem c8_title_amended_witness :
    ((parse_item probeEnv "ChatGPT OpenAI".data 1
        { title := some "Hello".data, link := none, pubDate := none,
          description := none, source := none }).getD default).title ≠ [] :=
  c8_title_amended probeEnv "ChatGPT OpenAI".data 1
    { title := some "Hello".data, link := none, pubDate := none,
      description := none, source := none }
    ((parse_item probeEnv "ChatGPT OpenAI".data 1
        { title := some "Hello".data, link := none, pubDate := none,
          description := none, source := none }).getD default)
    "Hello".data rfl rfl (by decide) trivial

end UpdateNews
